import Mathlib

/-!
Verification of the plottable rendering-pipeline core against its source.

The development shallowly embeds the four source files:
  - src/src/axes/numericAxis.ts  (class Numeric)
  - src/unnamed/part_000         (class ComponentContainer)
  - src/unnamed/part_001         (class Plots.Grid)
  - src/unnamed/part_002         (class Drawers.Rectangle)
JavaScript numbers are modelled as rationals (or as integers where the code
only adds and compares them), DOM client rects as records of such numbers, and
stateful methods as pure state-passing functions.  Helpers that
live outside the given sources (Utils.DOM geometry, the variant-specific
container membership operations, the base Plot dataset list) are modelled from
the specification and carry a doc comment saying so.
-/

namespace Plottable

/-- A DOM client rectangle, as consumed by the numeric axis layout code.
The overlap-resolution pass only adds paddings to coordinates and compares
them, so coordinates are modelled as integers (a decidable linearly ordered
carrier for the JavaScript numbers involved). -/
structure Rect where
  left : ℤ
  right : ℤ
  top : ℤ
  bottom : ℤ
deriving DecidableEq

instance : Inhabited Rect := ⟨⟨0, 0, 0, 0⟩⟩

/-- Modelled from the spec: `Utils.DOM.expandRect` (not under src/) expands a
rect by a padding on all four sides ("after independently expanding each rect
by a padding on all sides"). -/
def expandRect (rect : Rect) (padding : ℤ) : Rect :=
  { left := rect.left - padding
    right := rect.right + padding
    top := rect.top - padding
    bottom := rect.bottom + padding }

/-- Modelled from the spec: `Utils.DOM.clientRectsOverlap` (not under src/)
tests whether two client rects overlap, i.e. intersect with positive area in
both axes. -/
def clientRectsOverlap (a b : Rect) : Bool :=
  a.left < b.right && b.left < a.right && a.top < b.bottom && b.top < a.bottom

/-! ## Numeric._hasOverlapWithInterval (src/src/axes/numericAxis.ts:327-342)

The source is a `for (let i = 0; i < rects.length - interval; i += interval)`
loop over the padded rects, returning `false` as soon as the pair at indices
`(i, i + interval)` overlaps and `true` otherwise.  The loop is embedded with
an explicit fuel argument so that it stays structurally recursive; the fuel
`rects.length` is enough for every `interval >= 1` (the loop index grows by at
least one per iteration), which `hasOverlapWithIntervalGo_spec` below makes
precise. -/

def hasOverlapWithIntervalGo (rectsWithPadding : List Rect) (interval : ℕ) :
    ℕ → ℕ → Bool
  | _, 0 => true
  | i, fuel + 1 =>
    if i + interval < rectsWithPadding.length then
      if clientRectsOverlap (rectsWithPadding.getD i default)
          (rectsWithPadding.getD (i + interval) default) then
        false
      else
        hasOverlapWithIntervalGo rectsWithPadding interval (i + interval) fuel
    else
      true

/-- The padding used by `Numeric._hasOverlapWithInterval`: the tick label
padding in "center" positioning, three times it otherwise. -/
def overlapPadding (tickLabelPositioning : String) (tickLabelPadding : ℤ) : ℤ :=
  if tickLabelPositioning = "center" then tickLabelPadding
  else tickLabelPadding * 3

/-- `Numeric._hasOverlapWithInterval` (src/src/axes/numericAxis.ts:327-342):
returns `true` when keeping every `interval`-th rect produces no overlapping
pair among the tested pairs `(i, i + interval)` for `i = 0, interval,
2 * interval, ...`. -/
def hasOverlapWithInterval (tickLabelPositioning : String) (tickLabelPadding : ℤ)
    (interval : ℕ) (rects : List Rect) : Bool :=
  let padding := overlapPadding tickLabelPositioning tickLabelPadding
  let rectsWithPadding := rects.map (fun rect => expandRect rect padding)
  hasOverlapWithIntervalGo rectsWithPadding interval 0 rectsWithPadding.length

/-! ## Numeric._hideOverlappingTickLabels (src/src/axes/numericAxis.ts:294-315)

`while (!this._hasOverlapWithInterval(interval, rects) && interval < rects.length)
   interval += 1;`
then every visible label whose index is not a multiple of `interval` is hidden.
The while loop is embedded with fuel `rects.length`, which is enough starting
from `interval = 1`. -/

def hideOverlappingLoop (tickLabelPositioning : String) (tickLabelPadding : ℤ)
    (rects : List Rect) : ℕ → ℕ → ℕ
  | interval, 0 => interval
  | interval, fuel + 1 =>
    if hasOverlapWithInterval tickLabelPositioning tickLabelPadding interval rects = false
        ∧ interval < rects.length then
      hideOverlappingLoop tickLabelPositioning tickLabelPadding rects (interval + 1) fuel
    else
      interval

/-- The interval selected by `Numeric._hideOverlappingTickLabels`, starting
from `interval = 1`. -/
def chosenInterval (tickLabelPositioning : String) (tickLabelPadding : ℤ)
    (rects : List Rect) : ℕ :=
  hideOverlappingLoop tickLabelPositioning tickLabelPadding rects 1 rects.length

/-- `Numeric._hideOverlappingTickLabels` (src/src/axes/numericAxis.ts:294-315):
the visibility flags it leaves on the visible labels, in tick order.  A label
stays visible (`true`) exactly when its 0-indexed position is a multiple of the
selected interval. -/
def hideOverlappingTickLabels (tickLabelPositioning : String) (tickLabelPadding : ℤ)
    (rects : List Rect) : List Bool :=
  let interval := chosenInterval tickLabelPositioning tickLabelPadding rects
  (List.range rects.length).map (fun i => decide (i % interval = 0))

/-! ## The specification's reading of the overlap test (for claim C1)

The spec says the test considers "every pair of rects `interval` apart", i.e.
the pairs `(i, i + interval)` for every index `i`, not only for `i` a multiple
of `interval`.  The following definitions follow the spec's words so they can
be compared with the source embedding above. -/

/-- Follows the spec's words (not the source): every pair of padded rects
`interval` apart is non-overlapping. -/
def specNoOverlapAllPairs (tickLabelPositioning : String) (tickLabelPadding : ℤ)
    (interval : ℕ) (rects : List Rect) : Bool :=
  let padding := overlapPadding tickLabelPositioning tickLabelPadding
  let rectsWithPadding := rects.map (fun rect => expandRect rect padding)
  (List.range rectsWithPadding.length).all (fun i =>
    if i + interval < rectsWithPadding.length then
      !clientRectsOverlap (rectsWithPadding.getD i default)
        (rectsWithPadding.getD (i + interval) default)
    else
      true)

/-- Follows the spec's words (not the source): the interval search of claim C1,
retrying while some pair `interval` apart overlaps. -/
def specIntervalLoop (tickLabelPositioning : String) (tickLabelPadding : ℤ)
    (rects : List Rect) : ℕ → ℕ → ℕ
  | interval, 0 => interval
  | interval, fuel + 1 =>
    if specNoOverlapAllPairs tickLabelPositioning tickLabelPadding interval rects = false
        ∧ interval < rects.length then
      specIntervalLoop tickLabelPositioning tickLabelPadding rects (interval + 1) fuel
    else
      interval

/-- Follows the spec's words (not the source): the interval the claim says the
algorithm selects. -/
def specChosenInterval (tickLabelPositioning : String) (tickLabelPadding : ℤ)
    (rects : List Rect) : ℕ :=
  specIntervalLoop tickLabelPositioning tickLabelPadding rects 1 rects.length

/-! ## Characterization of the source's overlap test and interval search -/

/-- The pairs tested by the `for (let i = 0; ...; i += interval)` loop of
`Numeric._hasOverlapWithInterval`, started at index `i` with enough fuel, are
exactly the pairs `(i + k * interval, i + (k + 1) * interval)`. -/
theorem hasOverlapWithIntervalGo_spec (rp : List Rect) (interval : ℕ)
    (hpos : 0 < interval) :
    ∀ fuel i, rp.length - i ≤ fuel →
      (hasOverlapWithIntervalGo rp interval i fuel = true ↔
        ∀ k, i + (k + 1) * interval < rp.length →
          clientRectsOverlap (rp.getD (i + k * interval) default)
            (rp.getD (i + (k + 1) * interval) default) = false) := by
  intro fuel
  induction fuel with
  | zero =>
    intro i h
    simp only [hasOverlapWithIntervalGo]
    refine iff_of_true (by trivial) ?_
    intro k hk
    exfalso
    omega
  | succ fuel ih =>
    intro i h
    simp only [hasOverlapWithIntervalGo]
    by_cases hlt : i + interval < rp.length
    · rw [if_pos hlt]
      by_cases hov : clientRectsOverlap (rp.getD i default)
          (rp.getD (i + interval) default) = true
      · rw [if_pos hov]
        refine iff_of_false (by simp) ?_
        intro hall
        have h0 := hall 0 (by simpa using hlt)
        simp only [Nat.zero_mul, Nat.add_zero, Nat.zero_add, Nat.one_mul] at h0
        rw [hov] at h0
        simp at h0
      · rw [if_neg hov]
        rw [ih (i + interval) (by omega)]
        constructor
        · intro hall k hk
          rcases k with _ | k
          · simp only [Nat.zero_mul, Nat.add_zero, Nat.zero_add, Nat.one_mul]
            exact Bool.eq_false_iff.mpr hov
          · have e1 : i + (k + 1) * interval = i + interval + k * interval := by ring
            have e2 : i + (k + 1 + 1) * interval = i + interval + (k + 1) * interval := by
              ring
            rw [e1, e2]
            exact hall k (by rw [e2] at hk; exact hk)
        · intro hall k hk
          have e1 : i + interval + k * interval = i + (k + 1) * interval := by ring
          have e2 : i + interval + (k + 1) * interval = i + (k + 1 + 1) * interval := by
            ring
          rw [e1, e2]
          exact hall (k + 1) (by rw [← e2]; exact hk)
    · rw [if_neg hlt]
      refine iff_of_true (by trivial) ?_
      intro k hk
      exfalso
      have hle : interval ≤ (k + 1) * interval :=
        Nat.le_mul_of_pos_left interval (Nat.succ_pos k)
      omega

/-- `getD` through a `map`, below the length. -/
theorem getD_map_of_lt (f : Rect → Rect) (l : List Rect) (n : ℕ) (h : n < l.length) :
    (l.map f).getD n default = f (l.getD n default) := by
  induction l generalizing n with
  | nil => simp at h
  | cons a l ih =>
    rcases n with _ | n
    · rfl
    · simp only [List.map_cons, List.getD_cons_succ]
      exact ih n (by simpa using h)

/-- `Numeric._hasOverlapWithInterval` on the original rect list: it accepts an
interval exactly when every pair of rects at indices `(k * interval,
(k + 1) * interval)` — the source loop's index stepping by `interval` — is
non-overlapping after each rect is expanded by the padding. -/
theorem hasOverlapWithInterval_spec (tickLabelPositioning : String)
    (tickLabelPadding : ℤ) (interval : ℕ) (hpos : 0 < interval)
    (rects : List Rect) :
    hasOverlapWithInterval tickLabelPositioning tickLabelPadding interval rects = true ↔
      ∀ k, (k + 1) * interval < rects.length →
        clientRectsOverlap
          (expandRect (rects.getD (k * interval) default)
            (overlapPadding tickLabelPositioning tickLabelPadding))
          (expandRect (rects.getD ((k + 1) * interval) default)
            (overlapPadding tickLabelPositioning tickLabelPadding)) = false := by
  simp only [hasOverlapWithInterval]
  rw [hasOverlapWithIntervalGo_spec
    (rects.map (fun rect =>
      expandRect rect (overlapPadding tickLabelPositioning tickLabelPadding)))
    interval hpos
    (rects.map (fun rect =>
      expandRect rect (overlapPadding tickLabelPositioning tickLabelPadding))).length
    0 (by omega)]
  simp only [List.length_map, Nat.zero_add]
  constructor
  · intro hall k hk
    have hk0 : k * interval < rects.length :=
      lt_of_le_of_lt (mul_le_mul_right' (Nat.le_succ k) interval) hk
    have h := hall k hk
    rw [getD_map_of_lt _ _ _ hk0, getD_map_of_lt _ _ _ hk] at h
    exact h
  · intro hall k hk
    have hk0 : k * interval < rects.length :=
      lt_of_le_of_lt (mul_le_mul_right' (Nat.le_succ k) interval) hk
    rw [getD_map_of_lt _ _ _ hk0, getD_map_of_lt _ _ _ hk]
    exact hall k hk

/-- An interval at least the number of rects is always accepted: the source
loop `for (i = 0; i < rects.length - interval; i += interval)` runs no
iteration. -/
theorem hasOverlapWithInterval_of_length_le (tickLabelPositioning : String)
    (tickLabelPadding : ℤ) (interval : ℕ) (hpos : 0 < interval)
    (rects : List Rect) (h : rects.length ≤ interval) :
    hasOverlapWithInterval tickLabelPositioning tickLabelPadding interval rects = true := by
  rw [hasOverlapWithInterval_spec _ _ interval hpos]
  intro k hk
  exfalso
  have : interval ≤ (k + 1) * interval :=
    Nat.le_mul_of_pos_left interval (Nat.succ_pos k)
  omega

/-- The `while` loop of `Numeric._hideOverlappingTickLabels`, run with enough
fuel from a starting interval, stops at the least interval at or above the
start that the overlap test accepts (accepting intervals of at least
`rects.length` unconditionally, per the loop bound `interval < rects.length`). -/
theorem hideOverlappingLoop_spec (tickLabelPositioning : String)
    (tickLabelPadding : ℤ) (rects : List Rect) :
    ∀ fuel i0, rects.length - i0 ≤ fuel →
      i0 ≤ hideOverlappingLoop tickLabelPositioning tickLabelPadding rects i0 fuel ∧
      hideOverlappingLoop tickLabelPositioning tickLabelPadding rects i0 fuel ≤
        max i0 rects.length ∧
      (hasOverlapWithInterval tickLabelPositioning tickLabelPadding
          (hideOverlappingLoop tickLabelPositioning tickLabelPadding rects i0 fuel)
          rects = true ∨
        rects.length ≤ hideOverlappingLoop tickLabelPositioning tickLabelPadding rects i0 fuel) ∧
      ∀ m, i0 ≤ m →
        m < hideOverlappingLoop tickLabelPositioning tickLabelPadding rects i0 fuel →
        hasOverlapWithInterval tickLabelPositioning tickLabelPadding m rects = false := by
  intro fuel
  induction fuel with
  | zero =>
    intro i0 h
    simp only [hideOverlappingLoop]
    refine ⟨le_rfl, le_max_left _ _, Or.inr (by omega), ?_⟩
    intro m hm hm'
    omega
  | succ fuel ih =>
    intro i0 h
    simp only [hideOverlappingLoop]
    by_cases hc : hasOverlapWithInterval tickLabelPositioning tickLabelPadding i0 rects
        = false ∧ i0 < rects.length
    · rw [if_pos hc]
      obtain ⟨h1, h2, h3, h4⟩ := ih (i0 + 1) (by omega)
      refine ⟨by omega, by omega, h3, ?_⟩
      intro m hm hm'
      rcases Nat.eq_or_lt_of_le hm with hm | hm
      · rw [← hm]
        exact hc.1
      · exact h4 m hm hm'
    · rw [if_neg hc]
      refine ⟨le_rfl, le_max_left _ _, ?_, ?_⟩
      · rcases Decidable.not_and_iff_or_not.mp hc with h' | h'
        · exact Or.inl (by simpa using h')
        · exact Or.inr (by omega)
      · intro m hm hm'
        omega

/-- The interval selected by `Numeric._hideOverlappingTickLabels` is the least
accepted interval: it is at least 1, at most `max 1 rects.length`, it passes
the overlap test, and every smaller interval from 1 on fails it. -/
theorem chosenInterval_spec (tickLabelPositioning : String)
    (tickLabelPadding : ℤ) (rects : List Rect) :
    1 ≤ chosenInterval tickLabelPositioning tickLabelPadding rects ∧
    chosenInterval tickLabelPositioning tickLabelPadding rects ≤ max 1 rects.length ∧
    hasOverlapWithInterval tickLabelPositioning tickLabelPadding
      (chosenInterval tickLabelPositioning tickLabelPadding rects) rects = true ∧
    ∀ m, 1 ≤ m → m < chosenInterval tickLabelPositioning tickLabelPadding rects →
      hasOverlapWithInterval tickLabelPositioning tickLabelPadding m rects = false := by
  obtain ⟨h1, h2, h3, h4⟩ :=
    hideOverlappingLoop_spec tickLabelPositioning tickLabelPadding rects
      rects.length 1 (by omega)
  simp only [chosenInterval]
  refine ⟨h1, h2, ?_, h4⟩
  rcases h3 with h3 | h3
  · exact h3
  · exact hasOverlapWithInterval_of_length_le _ _ _ (by omega) _ h3

/-! ## Concrete label-rect inputs -/

/-- The label rects of the spec's overlap-resolution test case: horizontal
extents [0,10], [8,18], [20,30], [40,50], all with vertical extent [0,10].
Rect fields are (left, right, top, bottom). -/
def gridRects : List Rect :=
  [⟨0, 10, 0, 10⟩, ⟨8, 18, 0, 10⟩, ⟨20, 30, 0, 10⟩, ⟨40, 50, 0, 10⟩]

/-- Label rects separating the source's interval search from an all-pairs
reading of the overlap test: like `gridRects`, but the second label is wide
(horizontal extent [8,60]), so that after expansion by padding 2 the pairs
(0,1) and (1,3) overlap while (0,2) and (0,3) do not. -/
def wideRects : List Rect :=
  [⟨0, 10, 0, 10⟩, ⟨8, 60, 0, 10⟩, ⟨20, 30, 0, 10⟩, ⟨40, 50, 0, 10⟩]

/-- Claim C1 (amended): in the numeric axis's overlap-resolution pass, starting
from interval = 1, the algorithm tests whether every pair of visible label
rects at 0-indexed positions (k * interval, (k + 1) * interval) — its loop
steps the index by interval, so only pairs at consecutive multiples of the
interval are tested, not every pair that is interval apart — after expanding
each rect on all sides by a padding equal to the tick-label padding in
"center" mode and 3 times the tick-label padding otherwise, is non-overlapping;
if any tested pair overlaps it increments the interval and retries, stopping no
later than interval = rects.length; once an interval is accepted, exactly the
labels at 0-indexed positions that are multiples of the interval stay visible
and all others are hidden. -/
theorem claim_C1 (tickLabelPositioning : String) (tickLabelPadding : ℤ)
    (rects : List Rect) :
    1 ≤ chosenInterval tickLabelPositioning tickLabelPadding rects ∧
    chosenInterval tickLabelPositioning tickLabelPadding rects ≤ max 1 rects.length ∧
    hasOverlapWithInterval tickLabelPositioning tickLabelPadding
      (chosenInterval tickLabelPositioning tickLabelPadding rects) rects = true ∧
    (∀ m, 1 ≤ m → m < chosenInterval tickLabelPositioning tickLabelPadding rects →
      hasOverlapWithInterval tickLabelPositioning tickLabelPadding m rects = false) ∧
    (∀ m, 1 ≤ m →
      (hasOverlapWithInterval tickLabelPositioning tickLabelPadding m rects = true ↔
        ∀ k, (k + 1) * m < rects.length →
          clientRectsOverlap
            (expandRect (rects.getD (k * m) default)
              (overlapPadding tickLabelPositioning tickLabelPadding))
            (expandRect (rects.getD ((k + 1) * m) default)
              (overlapPadding tickLabelPositioning tickLabelPadding)) = false)) ∧
    hideOverlappingTickLabels tickLabelPositioning tickLabelPadding rects =
      (List.range rects.length).map
        (fun i => decide (i % chosenInterval tickLabelPositioning tickLabelPadding rects = 0)) := by
  obtain ⟨h1, h2, h3, h4⟩ := chosenInterval_spec tickLabelPositioning tickLabelPadding rects
  refine ⟨h1, h2, h3, h4, ?_, rfl⟩
  intro m hm
  exact hasOverlapWithInterval_spec tickLabelPositioning tickLabelPadding m (by omega) rects

/-- Witness for claim C1 at a concrete input: with padding 2 in "center" mode
on `wideRects`, the selected interval is at least 1, interval 1 is rejected by
the overlap test, and the pair characterization holds for interval 2. -/
theorem claim_C1_witness :
    1 ≤ chosenInterval "center" 2 wideRects ∧
    hasOverlapWithInterval "center" 2 1 wideRects = false ∧
    hasOverlapWithInterval "center" 2 2 wideRects = true := by
  refine ⟨(claim_C1 "center" 2 wideRects).1, ?_, ?_⟩
  · exact (claim_C1 "center" 2 wideRects).2.2.2.1 1 (by decide) (by decide)
  · decide

/-- Claim C1, as stated, fails at a concrete input: with tick-label padding 2
in "center" mode on `wideRects`, the algorithm accepts interval 2 and hides
exactly the labels at indices 1 and 3, although the pair of rects 2 apart at
indices (1, 3) overlaps after padding expansion — so the algorithm does not
test every pair of rects interval apart, and the interval search described by
the claim's wording would select 3 instead. -/
theorem claim_C1_counterexample :
    chosenInterval "center" 2 wideRects = 2 ∧
    clientRectsOverlap (expandRect (wideRects.getD 1 default) 2)
      (expandRect (wideRects.getD 3 default) 2) = true ∧
    specNoOverlapAllPairs "center" 2 2 wideRects = false ∧
    specChosenInterval "center" 2 wideRects = 3 ∧
    hideOverlappingTickLabels "center" 2 wideRects = [true, false, true, false] := by
  decide

/-- Claim C2: for label rects [0,10], [8,18], [20,30], [40,50] in tick order
with padding 2, the interval search selects interval 2: at interval 1 the
index-0/index-1 pair overlaps after padding expansion, at interval 2 every
tested pair is disjoint (under the source's stepping and also for every pair 2
apart), and the visible index set is exactly the multiples of 2 (indices 0 and
2, hiding index 1). -/
theorem claim_C2 :
    chosenInterval "center" 2 gridRects = 2 ∧
    hasOverlapWithInterval "center" 2 1 gridRects = false ∧
    clientRectsOverlap (expandRect (gridRects.getD 0 default) 2)
      (expandRect (gridRects.getD 1 default) 2) = true ∧
    hasOverlapWithInterval "center" 2 2 gridRects = true ∧
    specNoOverlapAllPairs "center" 2 2 gridRects = true ∧
    hideOverlappingTickLabels "center" 2 gridRects = [true, false, true, false] := by
  decide

/-! ## Numeric._getTickValues (src/src/axes/numericAxis.ts:82-88)

`_getTickValues` reads the scale's domain, normalizes it (the domain may be
given in either order), and filters the scale's ticks to the normalized
interval.  The scale is abstracted by its observable outputs: the domain pair
and the tick list, with tick values as rationals. -/

def getTickValues (domain : ℚ × ℚ) (ticks : List ℚ) : List ℚ :=
  let mn := if domain.1 ≤ domain.2 then domain.1 else domain.2
  let mx := if domain.1 ≥ domain.2 then domain.1 else domain.2
  ticks.filter (fun i => decide (mn ≤ i) && decide (i ≤ mx))

/-- Claim C7: for every Numeric axis whose scale has domain [d0, d1] given in
either order, _getTickValues returns exactly the scale's tick values v with
min(d0, d1) <= v <= max(d0, d1), in the order the scale produced them (the
result is a sublist of the tick sequence); no tick inside the normalized
interval is dropped and no tick outside it is kept. -/
theorem claim_C7 (d0 d1 : ℚ) (ticks : List ℚ) :
    getTickValues (d0, d1) ticks =
      ticks.filter (fun v => decide (min d0 d1 ≤ v) && decide (v ≤ max d0 d1)) ∧
    (∀ v, v ∈ getTickValues (d0, d1) ticks ↔
      v ∈ ticks ∧ min d0 d1 ≤ v ∧ v ≤ max d0 d1) ∧
    (getTickValues (d0, d1) ticks).Sublist ticks := by
  have hmn : (if d0 ≤ d1 then d0 else d1) = min d0 d1 := (min_def d0 d1).symm
  have hmx : (if d0 ≥ d1 then d0 else d1) = max d0 d1 := by
    rcases le_total d0 d1 with h | h
    · rw [max_eq_right h]
      split_ifs with h'
      · exact le_antisymm h h'
      · rfl
    · rw [max_eq_left h]
      split_ifs with h'
      · rfl
      · exact absurd h h'
  have hfilter : getTickValues (d0, d1) ticks =
      ticks.filter (fun v => decide (min d0 d1 ≤ v) && decide (v ≤ max d0 d1)) := by
    simp only [getTickValues]
    rw [hmn, hmx]
  refine ⟨hfilter, ?_, ?_⟩
  · intro v
    rw [hfilter]
    simp [List.mem_filter, and_assoc]
  · rw [hfilter]
    exact List.filter_sublist ticks

/-! ## Numeric._rescale (src/src/axes/numericAxis.ts:90-104) -/

/-- The rendering action taken by one call of `Numeric._rescale`. -/
inductive RescaleAction where
  | noop
  | redraw
  | render
deriving DecidableEq

/-- `Numeric._rescale`: returns immediately when the axis is not set up;
otherwise, on a non-horizontal axis, recomputes the required width and
triggers `redraw()` (a full structural pass) when it exceeds the current width
or has shrunk below width minus margin; in every other case calls `render()`.
The axis is abstracted by its setup flag, horizontality, recomputed width,
current width and margin. -/
def rescale (isSetup isHorizontal : Bool) (reComputedWidth width margin : ℚ) :
    RescaleAction :=
  if isSetup = false then
    RescaleAction.noop
  else if isHorizontal = false
      ∧ (reComputedWidth > width ∨ reComputedWidth < width - margin) then
    RescaleAction.redraw
  else
    RescaleAction.render

/-- Claim C8: for every set-up Numeric axis, _rescale on a non-horizontal axis
triggers a full structural redraw if and only if the recomputed required width
strictly exceeds the current width or is strictly below width minus margin,
and otherwise only re-renders in place; on a horizontal axis it skips the
width re-check and always just re-renders. -/
theorem claim_C8 (reComputedWidth width margin : ℚ) :
    (rescale true false reComputedWidth width margin = RescaleAction.redraw ↔
      (reComputedWidth > width ∨ reComputedWidth < width - margin)) ∧
    (rescale true false reComputedWidth width margin = RescaleAction.render ↔
      ¬(reComputedWidth > width ∨ reComputedWidth < width - margin)) ∧
    rescale true true reComputedWidth width margin = RescaleAction.render := by
  refine ⟨?_, ?_, ?_⟩
  · by_cases hc : reComputedWidth > width ∨ reComputedWidth < width - margin <;>
      simp [rescale, hc]
  · by_cases hc : reComputedWidth > width ∨ reComputedWidth < width - margin <;>
      simp [rescale, hc]
  · simp [rescale]

/-! ## Numeric.tickLabelPosition setter (src/src/axes/numericAxis.ts:233-251)

The setter lowercases the requested position, validates it against the axis's
orientation, and only then stores it (and requests a redraw).  The axis state
is abstracted by its horizontality and the stored positioning; the embedded
setter returns the error message thrown on invalid input, or the updated
state.  An error carries no state at all, mirroring that the source throws
before any assignment. -/

structure NumericAxisState where
  isHorizontal : Bool
  tickLabelPositioning : String
deriving DecidableEq

/-- The source's lowercasing of the requested position, modelled over the
string's characters. -/
def toLowerCase (s : String) : String :=
  ⟨s.data.map Char.toLower⟩

def tickLabelPosition (ax : NumericAxisState) (position : String) :
    Except String NumericAxisState :=
  let positionLC := toLowerCase position
  if ax.isHorizontal then
    if ¬(positionLC = "left" ∨ positionLC = "center" ∨ positionLC = "right") then
      Except.error
        (positionLC ++ " is not a valid tick label position for a horizontal NumericAxis")
    else
      Except.ok { ax with tickLabelPositioning := positionLC }
  else
    if ¬(positionLC = "top" ∨ positionLC = "center" ∨ positionLC = "bottom") then
      Except.error
        (positionLC ++ " is not a valid tick label position for a vertical NumericAxis")
    else
      Except.ok { ax with tickLabelPositioning := positionLC }

/-- Claim C6: calling tickLabelPosition with a position string that is not
valid for the axis's orientation (after lowercasing: left/center/right for a
horizontal axis, top/center/bottom for a vertical axis) yields an immediate
error with a descriptive message and never a new state — in particular the
stored tick-label positioning is not modified by the failed call, the error
being raised before any assignment. -/
theorem claim_C6 (ax : NumericAxisState) (position : String) :
    (ax.isHorizontal = true →
      ¬(toLowerCase position = "left" ∨ toLowerCase position = "center" ∨
          toLowerCase position = "right") →
      tickLabelPosition ax position =
        Except.error (toLowerCase position ++
          " is not a valid tick label position for a horizontal NumericAxis")) ∧
    (ax.isHorizontal = false →
      ¬(toLowerCase position = "top" ∨ toLowerCase position = "center" ∨
          toLowerCase position = "bottom") →
      tickLabelPosition ax position =
        Except.error (toLowerCase position ++
          " is not a valid tick label position for a vertical NumericAxis")) := by
  constructor
  · intro h1 h2
    simp only [tickLabelPosition, h1, if_true]
    rw [if_pos h2]
  · intro h1 h2
    simp only [tickLabelPosition, h1, Bool.false_eq_true, if_false]
    rw [if_pos h2]

/-- Witness for claim C6: requesting position "TOP" on a horizontal axis
currently positioned "center" fails with the descriptive message and yields no
state. -/
theorem claim_C6_witness :
    tickLabelPosition ⟨true, "center"⟩ "TOP" =
      Except.error (toLowerCase "TOP" ++
        " is not a valid tick label position for a horizontal NumericAxis") :=
  (claim_C6 ⟨true, "center"⟩ "TOP").1 rfl (by decide)

/-! ## Plots.Grid (src/unnamed/part_001)

The Grid plot binds data attributes to scales.  Scales are abstracted by their
observable interface: a category scale carries its scale function, its band
width and its paddings; a quantitative scale is its scale function.  The
`instanceof` dispatch of the source becomes a match on this sum type.
Projections store an accessor and an optional scale; the closures that
`Grid.project` installs for the derived attributes (x1, x2, y1, y2) are kept
as data, and their late-bound read of the current "x"/"y" projection happens
in `evalDerived`, mirroring that a closure reads `this._projections["x"]` at
call time. -/

structure CategoryScale (α : Type) where
  scaleFn : α → ℚ
  rangeBand : ℚ
  innerPadding : ℚ
  outerPadding : ℚ

inductive GridScale (α : Type) where
  | category : CategoryScale α → GridScale α
  | quantitative : (α → ℚ) → GridScale α

structure Projection (D α : Type) where
  accessor : D → ℕ → α
  scale : Option (GridScale α)

/-- The derived-attribute closures installed by `Grid.project`:
`bandLower c` is `(d, i) => c.scale(accessor(d, i)) - c.rangeBand() / 2`,
`bandUpper c` the `+ c.rangeBand() / 2` variant, and `scaled f` the plain
`(d, i) => f(accessor(d, i))` for a quantitative scale. -/
inductive DerivedProjector (α : Type) where
  | bandLower : CategoryScale α → DerivedProjector α
  | bandUpper : CategoryScale α → DerivedProjector α
  | scaled : (α → ℚ) → DerivedProjector α

structure GridProjections (D α : Type) where
  x : Option (Projection D α) := none
  y : Option (Projection D α) := none
  x1 : Option (DerivedProjector α) := none
  x2 : Option (DerivedProjector α) := none
  y1 : Option (DerivedProjector α) := none
  y2 : Option (DerivedProjector α) := none

/-- Evaluating a derived-attribute closure: it reads the current projection of
its axis (`this._projections["x"]` resp. `["y"]`) and applies the captured
scale; with no such projection the closure cannot resolve (none). -/
def evalDerived {D α : Type} (p : DerivedProjector α)
    (axisProjection : Option (Projection D α)) (d : D) (i : ℕ) : Option ℚ :=
  match axisProjection with
  | none => none
  | some proj =>
    match p with
    | DerivedProjector.bandLower c =>
      some (c.scaleFn (proj.accessor d i) - c.rangeBand / 2)
    | DerivedProjector.bandUpper c =>
      some (c.scaleFn (proj.accessor d i) + c.rangeBand / 2)
    | DerivedProjector.scaled f => some (f (proj.accessor d i))

def evalX1 {D α : Type} (st : GridProjections D α) (d : D) (i : ℕ) : Option ℚ :=
  st.x1.bind (fun p => evalDerived p st.x d i)

def evalX2 {D α : Type} (st : GridProjections D α) (d : D) (i : ℕ) : Option ℚ :=
  st.x2.bind (fun p => evalDerived p st.x d i)

def evalY1 {D α : Type} (st : GridProjections D α) (d : D) (i : ℕ) : Option ℚ :=
  st.y1.bind (fun p => evalDerived p st.y d i)

def evalY2 {D α : Type} (st : GridProjections D α) (d : D) (i : ℕ) : Option ℚ :=
  st.y2.bind (fun p => evalDerived p st.y d i)

/-- `Grid.project` (src/unnamed/part_001:54-94): stores the projection (the
base `Plot.project` keyed by the attribute name), then, for "x" or "y", derives
the banding projections when the scale is categorical (both `<axis>1` and
`<axis>2`) or the plain scaled projection when it is quantitative (only
`<axis>1`). -/
def project {D α : Type} (st : GridProjections D α) (attrToSet : String)
    (accessor : D → ℕ → α) (scale : Option (GridScale α)) : GridProjections D α :=
  let st :=
    if attrToSet = "x" then { st with x := some ⟨accessor, scale⟩ }
    else if attrToSet = "y" then { st with y := some ⟨accessor, scale⟩ }
    else st
  if attrToSet = "x" then
    match scale with
    | some (GridScale.category c) =>
      { st with x1 := some (DerivedProjector.bandLower c)
                x2 := some (DerivedProjector.bandUpper c) }
    | some (GridScale.quantitative f) =>
      { st with x1 := some (DerivedProjector.scaled f) }
    | none => st
  else if attrToSet = "y" then
    match scale with
    | some (GridScale.category c) =>
      { st with y1 := some (DerivedProjector.bandLower c)
                y2 := some (DerivedProjector.bandUpper c) }
    | some (GridScale.quantitative f) =>
      { st with y1 := some (DerivedProjector.scaled f) }
    | none => st
  else st

/-- Claim C3: for every Grid plot whose "x" (resp. "y") projection is bound to
a categorical scale, and for every datum d and index i, the derived x1 (resp.
y1) projection evaluates to scale(accessor(d, i)) - rangeBand / 2 and the
derived x2 (resp. y2) projection to scale(accessor(d, i)) + rangeBand / 2
exactly. -/
theorem claim_C3 (D α : Type) (st : GridProjections D α) (accessor : D → ℕ → α)
    (c : CategoryScale α) (d : D) (i : ℕ) :
    (evalX1 (project st "x" accessor (some (GridScale.category c))) d i =
        some (c.scaleFn (accessor d i) - c.rangeBand / 2) ∧
      evalX2 (project st "x" accessor (some (GridScale.category c))) d i =
        some (c.scaleFn (accessor d i) + c.rangeBand / 2)) ∧
    (evalY1 (project st "y" accessor (some (GridScale.category c))) d i =
        some (c.scaleFn (accessor d i) - c.rangeBand / 2) ∧
      evalY2 (project st "y" accessor (some (GridScale.category c))) d i =
        some (c.scaleFn (accessor d i) + c.rangeBand / 2)) := by
  refine ⟨⟨?_, ?_⟩, ⟨?_, ?_⟩⟩ <;>
    simp [project, evalX1, evalX2, evalY1, evalY2, evalDerived]

/-! ## Grid.addDataset (src/unnamed/part_001:37-44) -/

structure GridPlotState where
  datasetKeysInOrder : List String
deriving DecidableEq

/-- `Grid.addDataset`: when one dataset is already present it warns ("Only one
dataset is supported in Grid plots") and returns the plot unchanged; otherwise
it defers to the base `Plot.addDataset`.  The base method is not under src/
and is modelled from the spec as storing the added dataset (it is unreachable
under claim C4's hypothesis).  Returns the new state together with whether the
warning was emitted. -/
def addDataset (st : GridPlotState) (key : String) : GridPlotState × Bool :=
  if st.datasetKeysInOrder.length = 1 then
    (st, true)
  else
    ({ datasetKeysInOrder := st.datasetKeysInOrder ++ [key] }, false)

/-- Claim C4: for every Grid plot already holding one dataset, addDataset with
a second dataset emits the warning and returns the plot itself with its state
unchanged — the stored dataset is retained and the second dataset is not
added; a graceful rejection, not a hard failure. -/
theorem claim_C4 (st : GridPlotState) (key : String)
    (h : st.datasetKeysInOrder.length = 1) :
    addDataset st key = (st, true) := by
  simp [addDataset, h]

/-- Witness for claim C4: a Grid plot holding exactly the dataset "d0" rejects
a second dataset "d1" unchanged, with the warning emitted. -/
theorem claim_C4_witness :
    addDataset ⟨["d0"]⟩ "d1" = (⟨["d0"]⟩, true) :=
  claim_C4 ⟨["d0"]⟩ "d1" rfl

/-! ## Grid constructor scale handling (src/unnamed/part_001:20-35, claim C10) -/

/-- The Grid constructor's side effect on one scale passed to it: a category
scale has its inner and outer padding set to 0 (`xScale.innerPadding(0)
.outerPadding(0)`); any other scale is left untouched. -/
def gridConstructorScaleEffect {α : Type} : GridScale α → GridScale α
  | GridScale.category c =>
    GridScale.category { c with innerPadding := 0, outerPadding := 0 }
  | GridScale.quantitative f => GridScale.quantitative f

/-- The Grid constructor applies the padding-zeroing effect to both the x and
the y scale it receives. -/
def gridConstructorScales {α : Type} (xScale yScale : GridScale α) :
    GridScale α × GridScale α :=
  (gridConstructorScaleEffect xScale, gridConstructorScaleEffect yScale)

/-- Claim C10: constructing a Grid plot mutates the scales passed to it — a
categorical scale has its inner and outer padding set to 0 (its scale function
and band width are untouched), while a non-categorical scale is left entirely
unchanged; this holds for the x scale and the y scale independently. -/
theorem claim_C10 (α : Type) (cx cy : CategoryScale α) (fx fy : α → ℚ) :
    gridConstructorScales (GridScale.category cx) (GridScale.category cy) =
      (GridScale.category ⟨cx.scaleFn, cx.rangeBand, 0, 0⟩,
        GridScale.category ⟨cy.scaleFn, cy.rangeBand, 0, 0⟩) ∧
    gridConstructorScales (GridScale.quantitative fx) (GridScale.quantitative fy) =
      (GridScale.quantitative fx, GridScale.quantitative fy) ∧
    gridConstructorScales (GridScale.category cx) (GridScale.quantitative fy) =
      (GridScale.category ⟨cx.scaleFn, cx.rangeBand, 0, 0⟩,
        GridScale.quantitative fy) :=
  ⟨rfl, rfl, rfl⟩

/-! ## ComponentContainer.remove (src/unnamed/part_000:54-62)

`remove(component)` guards on `this.has(component)`; when the guard holds it
unsubscribes the container's detach callback (`offDetach`), invokes the
variant-specific `_remove`, detaches the component and requests a redraw; when
it does not, nothing happens and the container is returned unchanged.  On the
base class `has` and `_remove` are abstract (`has` throws, `_remove` returns
false); the concrete variants' list semantics are not under src/ and are
modelled from the spec ("`remove` is a no-op if the component is not a
member"; a container "owns zero or more child Components", each child having
one owner): `has` is membership in the child list and `_remove` removes the
component from it.  Components are identified by numeric ids and the
observable calls of one `remove` are recorded in `RemoveEffects`. -/

structure ContainerState where
  children : List ℕ
deriving DecidableEq

/-- Modelled from the spec: the variant-specific `has` — membership of the
component in the container's child list. -/
def hasComponent (st : ContainerState) (component : ℕ) : Bool :=
  st.children.contains component

/-- Modelled from the spec: the variant-specific `_remove` — removes the
component from the child list, reporting via its boolean whether it was
present (the source's `remove` ignores this boolean). -/
def removeVariant (st : ContainerState) (component : ℕ) : ContainerState × Bool :=
  (⟨st.children.filter (fun c => c ≠ component)⟩, st.children.contains component)

/-- The observable effects of one `ComponentContainer.remove` call: which
components had `offDetach` called, which were detached, and whether a redraw
was requested. -/
structure RemoveEffects where
  offDetachCalls : List ℕ
  detachCalls : List ℕ
  redrawRequested : Bool
deriving DecidableEq

/-- `ComponentContainer.remove`: the guarded mutation sequence of the source,
returning the container state afterwards together with the recorded effects. -/
def removeComponent (st : ContainerState) (component : ℕ) :
    ContainerState × RemoveEffects :=
  if hasComponent st component then
    ((removeVariant st component).1, ⟨[component], [component], true⟩)
  else
    (st, ⟨[], [], false⟩)

/-- Claim C5: remove(x) performs its mutation sequence (offDetach, the
variant-specific _remove, detach, redraw) if and only if has(x) is true; on a
non-member it is a safe no-op leaving the child set unchanged with no effect
calls; and after remove(x), has(x) is always false. -/
theorem claim_C5 (st : ContainerState) (component : ℕ) :
    (hasComponent st component = true →
      removeComponent st component =
        ((removeVariant st component).1, ⟨[component], [component], true⟩)) ∧
    (hasComponent st component = false →
      removeComponent st component = (st, ⟨[], [], false⟩)) ∧
    hasComponent (removeComponent st component).1 component = false := by
  refine ⟨?_, ?_, ?_⟩
  · intro h
    simp [removeComponent, h]
  · intro h
    simp [removeComponent, h]
  · by_cases h : hasComponent st component = true
    · simp only [removeComponent, h, if_true]
      simp [hasComponent, removeVariant]
    · rw [Bool.not_eq_true] at h
      simp only [removeComponent, h, Bool.false_eq_true, if_false]

/-- Witness for claim C5: removing component 1 from a container holding
children [1, 2] performs the mutation sequence, leaves [2], and membership of
1 afterwards is false. -/
theorem claim_C5_witness :
    removeComponent ⟨[1, 2]⟩ 1 = (⟨[2]⟩, ⟨[1], [1], true⟩) ∧
    hasComponent (removeComponent ⟨[1, 2]⟩ 1).1 1 = false := by
  constructor
  · rw [(claim_C5 ⟨[1, 2]⟩ 1).1 (by decide)]
    decide
  · exact (claim_C5 ⟨[1, 2]⟩ 1).2.2

/-! ## Drawers.Rectangle._canvasDraw (src/unnamed/part_002:20-51)

For each data point in input order, `_canvasDraw` resolves every attribute
through its applied projector at (point, index), begins a path, issues one
rectangle at (x, y, width, height), then — independently — strokes when the
resolved stroke attribute is truthy and fills when the resolved fill attribute
is truthy, each time parsing the color with d3.color and assigning the
resolved opacity to it when that opacity is truthy.  Stroke and fill
attributes are modelled as already parsed colors (a null or non-color
attribute is none); the canvas context is modelled by the list of operations
issued on it. -/

/-- An RGB color with an opacity, as produced by d3.color parsing. -/
structure DrawColor where
  r : ℕ
  g : ℕ
  b : ℕ
  opacity : ℚ
deriving DecidableEq

/-- The applied projectors (`attrToAppliedProjector`) of one draw step,
restricted to the attributes `_canvasDraw` reads. -/
structure AppliedProjectors (D : Type) where
  x : D → ℕ → ℚ
  y : D → ℕ → ℚ
  width : D → ℕ → ℚ
  height : D → ℕ → ℚ
  stroke : D → ℕ → Option DrawColor
  fill : D → ℕ → Option DrawColor
  opacity : D → ℕ → Option ℚ

/-- The source's `if (resolvedAttrs["opacity"]) { color.opacity = ... }`:
JavaScript truthiness makes a resolved opacity of 0 fall through, leaving the
color's own alpha. -/
def applyOpacity (c : DrawColor) : Option ℚ → DrawColor
  | some o => if o ≠ 0 then { c with opacity := o } else c
  | none => c

/-- One primitive operation issued on the canvas context. -/
inductive CanvasOp where
  | beginPath
  | rect (x y width height : ℚ)
  | strokePath (color : DrawColor)
  | fillPath (color : DrawColor)
deriving DecidableEq

def isRectOp : CanvasOp → Bool
  | CanvasOp.rect _ _ _ _ => true
  | _ => false

def isStrokeOp : CanvasOp → Bool
  | CanvasOp.strokePath _ => true
  | _ => false

def isFillOp : CanvasOp → Bool
  | CanvasOp.fillPath _ => true
  | _ => false

/-- The canvas operations issued for one datum: begin a path, one rectangle at
the resolved (x, y, width, height), a stroke when the stroke attribute
resolves to a color, and a fill when the fill attribute resolves to a color. -/
def datumDrawOps {D : Type} (step : AppliedProjectors D) (point : D)
    (index : ℕ) : List CanvasOp :=
  [CanvasOp.beginPath,
    CanvasOp.rect (step.x point index) (step.y point index)
      (step.width point index) (step.height point index)]
  ++ (match step.stroke point index with
      | some c => [CanvasOp.strokePath (applyOpacity c (step.opacity point index))]
      | none => [])
  ++ (match step.fill point index with
      | some c => [CanvasOp.fillPath (applyOpacity c (step.opacity point index))]
      | none => [])

def canvasDrawGo {D : Type} (step : AppliedProjectors D) :
    List D → ℕ → List CanvasOp
  | [], _ => []
  | point :: rest, index =>
    datumDrawOps step point index ++ canvasDrawGo step rest (index + 1)

/-- `Rectangle._canvasDraw`: `data.forEach((point, index) => ...)`, collecting
the operations issued on the canvas context. -/
def canvasDraw {D : Type} (step : AppliedProjectors D) (data : List D) :
    List CanvasOp :=
  canvasDrawGo step data 0

/-- The draw loop emits the per-datum operations in input order with
consecutive indices. -/
theorem canvasDrawGo_enumFrom {D : Type} (step : AppliedProjectors D) :
    ∀ (l : List D) (i : ℕ),
      canvasDrawGo step l i =
        (List.enumFrom i l).flatMap (fun p => datumDrawOps step p.2 p.1) := by
  intro l
  induction l with
  | nil => intro i; rfl
  | cons point rest ih =>
    intro i
    simp only [canvasDrawGo, List.enumFrom, List.flatMap]
    rw [ih (i + 1)]
    simp [List.flatMap]

/-- Claim C9 (amended): the canvas draw processes the data points strictly in
input order with consecutive indices; for each datum it resolves every
attribute via its (datum, index) projector, first issues one rectangle path at
the resolved (x, y, width, height), strokes it exactly when the stroke
attribute resolves to a non-null color and fills it exactly when the fill
attribute resolves to a non-null color — independent operations on the same
datum, a null attribute skipping only its own operation — and a resolved
non-zero opacity attribute overrides the color's own alpha before the color is
applied (an opacity resolving to 0 is falsy in JavaScript and leaves the
color's own alpha in place). -/
theorem claim_C9 (D : Type) (step : AppliedProjectors D) (data : List D)
    (point : D) (index : ℕ) :
    canvasDraw step data =
      data.enum.flatMap (fun p => datumDrawOps step p.2 p.1) ∧
    (datumDrawOps step point index).take 2 =
      [CanvasOp.beginPath,
        CanvasOp.rect (step.x point index) (step.y point index)
          (step.width point index) (step.height point index)] ∧
    (datumDrawOps step point index).filter isRectOp =
      [CanvasOp.rect (step.x point index) (step.y point index)
        (step.width point index) (step.height point index)] ∧
    (∀ c, step.stroke point index = some c →
      (datumDrawOps step point index).filter isStrokeOp =
        [CanvasOp.strokePath (applyOpacity c (step.opacity point index))]) ∧
    (step.stroke point index = none →
      (datumDrawOps step point index).filter isStrokeOp = []) ∧
    (∀ c, step.fill point index = some c →
      (datumDrawOps step point index).filter isFillOp =
        [CanvasOp.fillPath (applyOpacity c (step.opacity point index))]) ∧
    (step.fill point index = none →
      (datumDrawOps step point index).filter isFillOp = []) ∧
    (∀ (c : DrawColor) (o : ℚ), o ≠ 0 →
      applyOpacity c (some o) = { c with opacity := o }) ∧
    (∀ c : DrawColor, applyOpacity c none = c) := by
  refine ⟨?_, rfl, ?_, ?_, ?_, ?_, ?_, ?_, fun c => rfl⟩
  · rw [canvasDraw, canvasDrawGo_enumFrom step data 0, List.enum]
  · rcases hs : step.stroke point index with _ | c <;>
      rcases hf : step.fill point index with _ | c2 <;>
        simp [datumDrawOps, hs, hf, isRectOp]
  · intro c hc
    rcases hf : step.fill point index with _ | c2 <;>
      simp [datumDrawOps, hc, hf, isStrokeOp]
  · intro hc
    rcases hf : step.fill point index with _ | c2 <;>
      simp [datumDrawOps, hc, hf, isStrokeOp]
  · intro c hc
    rcases hs : step.stroke point index with _ | c2 <;>
      simp [datumDrawOps, hc, hs, isFillOp]
  · intro hc
    rcases hs : step.stroke point index with _ | c2 <;>
      simp [datumDrawOps, hc, hs, isFillOp]
  · intro c o ho
    simp [applyOpacity, ho]

/-- A draw step whose stroke attribute resolves to a color with full alpha and
whose opacity attribute resolves to 0, on a single-datum dataset. -/
def opacityZeroStep : AppliedProjectors Unit where
  x := fun _ _ => 0
  y := fun _ _ => 0
  width := fun _ _ => 5
  height := fun _ _ => 5
  stroke := fun _ _ => some ⟨10, 20, 30, 1⟩
  fill := fun _ _ => none
  opacity := fun _ _ => some 0

/-- Claim C9, as stated, fails at a concrete input: with a stroke color of
alpha 1 and an opacity attribute resolving to 0, the emitted stroke keeps
alpha 1 — the resolved opacity does not override the color's own alpha,
because `if (resolvedAttrs["opacity"])` is false for 0 in JavaScript. -/
theorem claim_C9_counterexample :
    canvasDraw opacityZeroStep [()] =
      [CanvasOp.beginPath, CanvasOp.rect 0 0 5 5,
        CanvasOp.strokePath ⟨10, 20, 30, 1⟩] ∧
    (⟨10, 20, 30, 1⟩ : DrawColor) ≠ ⟨10, 20, 30, 0⟩ := by
  constructor
  · decide
  · decide

/-- A draw step with both a stroke and a fill color and a non-zero resolved
opacity. -/
def bothAttrsStep : AppliedProjectors Unit where
  x := fun _ _ => 1
  y := fun _ _ => 2
  width := fun _ _ => 3
  height := fun _ _ => 4
  stroke := fun _ _ => some ⟨1, 2, 3, 1⟩
  fill := fun _ _ => some ⟨4, 5, 6, 1⟩
  opacity := fun _ _ => some 2

/-- Witness for claim C9: on a concrete step with both attributes and a
non-zero opacity, the datum is both stroked and filled (independently), each
with the overridden opacity. -/
theorem claim_C9_witness :
    (datumDrawOps bothAttrsStep () 0).filter isStrokeOp =
      [CanvasOp.strokePath ⟨1, 2, 3, 2⟩] ∧
    (datumDrawOps bothAttrsStep () 0).filter isFillOp =
      [CanvasOp.fillPath ⟨4, 5, 6, 2⟩] := by
  constructor
  · rw [(claim_C9 Unit bothAttrsStep [()] () 0).2.2.2.1 ⟨1, 2, 3, 1⟩ rfl]
    decide
  · rw [(claim_C9 Unit bothAttrsStep [()] () 0).2.2.2.2.2.1 ⟨4, 5, 6, 1⟩ rfl]
    decide

end Plottable
